import Mathlib

/-!
Shallow embedding of the ssh_chat server core (src/main.rs) and proofs about
its specification.

The embedding models:
  * the per-session state (`Client`: input buffer, identity, fingerprint,
    scroll bias, viewport, and the sequence of frames pushed to its sink);
  * the shared server state (`AppServer`: client registry, history log,
    pending auth records), with the registry and record maps modelled as
    association lists (the Rust code uses `HashMap<usize, _>`, which keeps
    at most one entry per key);
  * the render math of `Client::render` (overflow/scroll clamp/offset,
    including the `as u16` truncation of the overflow computation);
  * the event handlers `channel_open_session`, `auth_publickey`, `data`
    and `window_change_request`.

External collaborators that the spec places out of scope are passed in as
parameters: the terminal layout engine supplies each session's history-pane
viewport (`Viewport`), and the line-wrapping engine supplies the wrapped
line count as a function `wrap : List String → Nat → Nat` (history, pane
width ↦ wrapped line count).
-/

/-- Association-list lookup keyed by `Nat`, modelling `HashMap::get`. -/
def lookupA {α : Type} : List (Nat × α) → Nat → Option α
  | [], _ => none
  | (k, v) :: rest, i => if k = i then some v else lookupA rest i

/-- Association-list insert/overwrite, modelling `HashMap::insert`. -/
def insertA {α : Type} : List (Nat × α) → Nat → α → List (Nat × α)
  | [], i, v => [(i, v)]
  | (k, w) :: rest, i, v =>
    if k = i then (i, v) :: rest else (k, w) :: insertA rest i v

/-- Association-list removal, modelling `HashMap::remove`. -/
def eraseA {α : Type} : List (Nat × α) → Nat → List (Nat × α)
  | [], _ => []
  | (k, w) :: rest, i => if k = i then rest else (k, w) :: eraseA rest i

/-- Drop the bytes of a CSI escape sequence up to and including its final
byte (an ANSI final byte lies in `0x40 ..= 0x7e`). Part of the modelled
external stripper (see `stripCtl`). -/
def dropCsi : List Nat → List Nat
  | [] => []
  | b :: rest => if 64 ≤ b ∧ b ≤ 126 then rest else dropCsi rest

theorem dropCsi_length_le (l : List Nat) : (dropCsi l).length ≤ l.length := by
  induction l with
  | nil => simp [dropCsi]
  | cons b rest ih =>
    simp only [dropCsi]
    split
    · simp
    · exact Nat.le_trans ih (Nat.le_succ _)

/-- Modelled from the spec: the external `strip_ansi_escapes::strip` call is
not part of src/; per the spec it strips "control/escape sequences" from the
typed bytes. ESC-initiated sequences (including CSI sequences up to their
final byte) and C0 control bytes / DEL are removed; all other bytes pass
through. -/
def stripCtl : List Nat → List Nat
  | [] => []
  | [27] => []
  | 27 :: 91 :: rest => stripCtl (dropCsi rest)
  | 27 :: _ :: rest => stripCtl rest
  | b :: rest => if b < 32 ∨ b = 127 then stripCtl rest else b :: stripCtl rest
  termination_by l => l.length
  decreasing_by
  all_goals simp only [List.length_cons]
  · have := dropCsi_length_le rest
    omega
  all_goals omega

/-- The Unicode replacement character U+FFFD. -/
def replChar : Char := Char.ofNat 65533

/-- The character with code point `n` when valid, else U+FFFD. -/
def charOr (n : Nat) : Char := if n.isValidChar then Char.ofNat n else replChar

/-- Whether a byte is a UTF-8 continuation byte (`0b10xxxxxx`). -/
def isCont (b : Nat) : Prop := 128 ≤ b ∧ b < 192

instance (b : Nat) : Decidable (isCont b) := by unfold isCont; infer_instance

/-- Decode one scalar value from a lead byte and the following bytes,
returning the decoded character (U+FFFD on an ill-formed sequence) and the
not-yet-consumed remainder of the input. -/
def utf8Step (b : Nat) (rest : List Nat) : Char × List Nat :=
  if b < 128 then (charOr b, rest)
  else if 192 ≤ b ∧ b ≤ 223 then
    match rest with
    | b2 :: rest2 =>
      if isCont b2 then (charOr ((b - 192) * 64 + (b2 - 128)), rest2)
      else (replChar, b2 :: rest2)
    | [] => (replChar, [])
  else if 224 ≤ b ∧ b ≤ 239 then
    match rest with
    | b2 :: b3 :: rest3 =>
      if isCont b2 ∧ isCont b3 then
        (charOr ((b - 224) * 4096 + (b2 - 128) * 64 + (b3 - 128)), rest3)
      else (replChar, b2 :: b3 :: rest3)
    | _ => (replChar, [])
  else if 240 ≤ b ∧ b ≤ 244 then
    match rest with
    | b2 :: b3 :: b4 :: rest4 =>
      if isCont b2 ∧ isCont b3 ∧ isCont b4 then
        (charOr ((b - 240) * 262144 + (b2 - 128) * 4096 + (b3 - 128) * 64 + (b4 - 128)), rest4)
      else (replChar, b2 :: b3 :: b4 :: rest4)
    | _ => (replChar, [])
  else (replChar, rest)

theorem utf8Step_length (b : Nat) (rest : List Nat) :
    (utf8Step b rest).2.length ≤ rest.length := by
  unfold utf8Step
  repeat first
  | omega
  | (split <;> try simp_all)

/-- Modelled from the spec: the external `String::from_utf8_lossy` call is
not part of src/; per the spec, typed bytes are decoded with "invalid byte
sequences replaced rather than failing". UTF-8 decoding where every
ill-formed subsequence contributes a U+FFFD replacement character. -/
def utf8Lossy : List Nat → List Char
  | [] => []
  | b :: rest =>
    let p := utf8Step b rest
    p.1 :: utf8Lossy p.2
  termination_by l => l.length
  decreasing_by
  have := utf8Step_length b rest
  simp only [List.length_cons]
  omega

/-- The text appended to the input buffer for a raw byte event that reaches
the default branch of `Handler::data`:
`String::from_utf8_lossy(strip(text))`. -/
def stripDecode (bs : List Nat) : String := String.mk (utf8Lossy (stripCtl bs))

/-- The history pane's rectangle, as supplied by the external layout engine
(`Layout::vertical` split of the terminal area, out of scope per the spec). -/
structure Viewport where
  width : Nat
  histHeight : Nat
  deriving DecidableEq, Repr

/-- One frame drawn by `Client::render`: the history snapshot it rendered,
the scroll offset applied to the history paragraph, and the input-pane text. -/
structure Frame where
  history : List String
  scrollOffset : Nat
  input : String
  deriving DecidableEq, Repr

/-- One item pushed through a session's terminal handle: either the
`terminal.clear()` performed at session creation, or a drawn frame. -/
inductive SinkItem where
  | clear : SinkItem
  | frame : Frame → SinkItem
  deriving DecidableEq, Repr

/-- Per-session state (struct `Client` in src/main.rs); `sink` records the
items pushed through this session's terminal handle, oldest first. The
source's `scroll: i32` is modelled as `Int` (every render clamps it into
`[-overflow, 0]`, far from the i32 range ends). -/
structure Client where
  input : String
  user : String
  fingerprint : String
  scroll : Int
  viewport : Viewport
  sink : List SinkItem
  deriving DecidableEq, Repr

/-- Rust `i32::clamp(lo, hi)` for `lo ≤ hi`. -/
def clampI (x lo hi : Int) : Int := max lo (min x hi)

/-- The overflow computed in `Client::render`:
`if line_count > height { (line_count - height + 4) as u16 } else { 0 }`
(the `as u16` cast truncates modulo 2^16). -/
def overflowOf (lineCount histHeight : Nat) : Nat :=
  if histHeight < lineCount then (lineCount - histHeight + 4) % 65536 else 0

/-- The scroll/offset math of `Client::render`, given the wrapped line count
of the external renderer: clamp `scroll` into `[-overflow, 0]`, then derive
the display offset (`saturating_sub` is Nat subtraction; the `+=` on `u16`
wraps modulo 2^16). Returns the updated client state and drawn frame. -/
def Client.renderFrame (wrap : List String → Nat → Nat) (history : List String)
    (c : Client) : Client × Frame :=
  let lineCount := wrap history c.viewport.width
  let so := overflowOf lineCount c.viewport.histHeight
  let scroll := clampI c.scroll (-(so : Int)) 0
  let offset := if scroll < 0 then so - scroll.natAbs else (so + scroll.natAbs) % 65536
  ({ c with scroll := scroll }, { history := history, scrollOffset := offset, input := c.input })

/-- `Client::render`: compute the frame and push it through the sink. -/
def Client.render (wrap : List String → Nat → Nat) (history : List String)
    (c : Client) : Client :=
  let p := Client.renderFrame wrap history c
  { p.1 with sink := p.1.sink ++ [SinkItem.frame p.2] }

/-- `Client::new`: fresh state with empty input and scroll 0; clears the
terminal, then renders an initial frame from the given history snapshot. -/
def Client.new (wrap : List String → Nat → Nat) (user fingerprint : String)
    (history : List String) (vp : Viewport) : Client :=
  Client.render wrap history
    { input := "", user := user, fingerprint := fingerprint, scroll := 0,
      viewport := vp, sink := [SinkItem.clear] }

/-- Transport-facing side effects emitted by `Handler::data`, in order. -/
inductive Effect where
  | registryRemove : Nat → Effect
  | channelClose : Nat → Effect
  deriving DecidableEq, Repr

/-- Failure modes of the handlers: `notFound` models
`ok_or(anyhow!(ErrorKind::NotFound))?` (a returned error, fatal for the
originating connection); `panicked` models the `unwrap()` on a missing map
entry in `window_change_request` (a panic aborting that connection's task). -/
inductive Err where
  | notFound : Err
  | panicked : Err
  deriving DecidableEq, Repr

/-- Shared server state (struct `AppServer`): the client registry, the
history log, and the pending auth records. The Rust `HashMap<usize, _>`
maps are modelled as association lists; the credential (`PublicKey`, an
external type) is modelled as its raw bytes. `id` is passed to each handler
explicitly rather than stored, since `new_client` gives every connection its
own clone of the server carrying a distinct id. -/
structure AppServer where
  clients : List (Nat × Client)
  history : List String
  keys : List (Nat × (String × List Nat))
  deriving DecidableEq, Repr

/-- Modelled from the spec: `russh_keys` computes the credential fingerprint
(`key.fingerprint()`), external to src/; per the spec it is a "short
credential digest" of the presented key, here a digest string folded from
the key bytes. -/
def fingerprint (key : List Nat) : String :=
  "key-" ++ Nat.repr (key.foldl (fun a b => (a * 31 + b) % 4294967296) 5381)

/-- `Handler::auth_publickey`: record the pending (identity, credential)
pair for this connection id; every credential is accepted (`Auth::Accept`). -/
def AppServer.authPublickey (id : Nat) (user : String) (key : List Nat)
    (s : AppServer) : AppServer :=
  { s with keys := insertA s.keys id (user, key) }

/-- `Handler::channel_open_session`: look up the pending auth record for
this id (`keys.get`, which fails with `NotFound` when absent and leaves the
record in place otherwise) and insert a freshly created client rendered from
the current history snapshot. The terminal size reaching `Terminal::new` is
external; it enters as the viewport argument. -/
def AppServer.channelOpenSession (wrap : List String → Nat → Nat) (id : Nat)
    (vp : Viewport) (s : AppServer) : Except Err AppServer :=
  match lookupA s.keys id with
  | none => Except.error Err.notFound
  | some (user, key) =>
    Except.ok { s with
      clients := insertA s.clients id (Client.new wrap user (fingerprint key) s.history vp) }

/-- `Handler::data`: look up the sender, then dispatch on the raw bytes.
The source `match` over disjoint byte patterns (with `[127] | [8]` sharing
one arm) is rendered as the equivalent chain of sequential equality tests. -/
def AppServer.data (wrap : List String → Nat → Nat) (id ch : Nat)
    (bytes : List Nat) (s : AppServer) : Except Err (AppServer × List Effect) :=
  match lookupA s.clients id with
  | none => Except.error Err.notFound
  | some client =>
    if bytes = [3] then
      Except.ok ({ s with clients := eraseA s.clients id },
        [Effect.registryRemove id, Effect.channelClose ch])
    else if bytes = [13] then
      let hist := s.history ++ [client.fingerprint, client.user ++ ": " ++ client.input, ""]
      let cleared := { client with input := "" }
      Except.ok ({ s with
          history := hist,
          clients := (insertA s.clients id cleared).map fun p =>
            (p.1, Client.render wrap hist p.2) }, [])
    else if bytes = [127] ∨ bytes = [8] then
      let c := { client with input := client.input.dropRight 1 }
      Except.ok ({ s with clients := insertA s.clients id (Client.render wrap s.history c) }, [])
    else if bytes = [27, 91, 65] then
      let c := { client with scroll := client.scroll - 1 }
      Except.ok ({ s with clients := insertA s.clients id (Client.render wrap s.history c) }, [])
    else if bytes = [27, 91, 66] then
      let c := { client with scroll := client.scroll + 1 }
      Except.ok ({ s with clients := insertA s.clients id (Client.render wrap s.history c) }, [])
    else if bytes = [27, 91, 53, 126] then
      let c := { client with scroll := client.scroll - 10 }
      Except.ok ({ s with clients := insertA s.clients id (Client.render wrap s.history c) }, [])
    else if bytes = [27, 91, 54, 126] then
      let c := { client with scroll := client.scroll + 10 }
      Except.ok ({ s with clients := insertA s.clients id (Client.render wrap s.history c) }, [])
    else
      let c := { client with input := client.input ++ stripDecode bytes }
      Except.ok ({ s with clients := insertA s.clients id (Client.render wrap s.history c) }, [])

/-- `Handler::window_change_request`: look up the sender (`unwrap()`, a
panic when absent), resize its terminal and re-render from the current
history. The history pane rectangle resulting from the new terminal size is
supplied by the external layout engine as `vp`. -/
def AppServer.windowChangeRequest (wrap : List String → Nat → Nat) (id : Nat)
    (vp : Viewport) (s : AppServer) : Except Err AppServer :=
  match lookupA s.clients id with
  | none => Except.error Err.panicked
  | some client =>
    let c := { client with viewport := vp }
    Except.ok { s with clients := insertA s.clients id (Client.render wrap s.history c) }

/-- The semantic commands of the spec (§4.2). -/
inductive Cmd where
  | disconnect : Cmd
  | submit : Cmd
  | deleteLastChar : Cmd
  | scrollBack : Nat → Cmd
  | scrollForward : Nat → Cmd
  | appendText : String → Cmd
  deriving DecidableEq, Repr

/-- The input interpreter as a standalone mapping: the byte patterns of the
source `match` in `Handler::data`, each mapped to its spec command; every
unmatched sequence falls through to `AppendText` of the stripped, lossily
decoded text. -/
def classify (bytes : List Nat) : Cmd :=
  if bytes = [3] then Cmd.disconnect
  else if bytes = [13] then Cmd.submit
  else if bytes = [127] ∨ bytes = [8] then Cmd.deleteLastChar
  else if bytes = [27, 91, 65] then Cmd.scrollBack 1
  else if bytes = [27, 91, 66] then Cmd.scrollForward 1
  else if bytes = [27, 91, 53, 126] then Cmd.scrollBack 10
  else if bytes = [27, 91, 54, 126] then Cmd.scrollForward 10
  else Cmd.appendText (stripDecode bytes)

/-- The per-command semantic action of `Handler::data`, factored out of the
byte dispatch: applying `applyCmd` to `classify bytes` is proved equal to
`AppServer.data` on `bytes`. -/
def applyCmd (wrap : List String → Nat → Nat) (id ch : Nat) (cmd : Cmd)
    (s : AppServer) : Except Err (AppServer × List Effect) :=
  match lookupA s.clients id with
  | none => Except.error Err.notFound
  | some client =>
    match cmd with
    | Cmd.disconnect =>
      Except.ok ({ s with clients := eraseA s.clients id },
        [Effect.registryRemove id, Effect.channelClose ch])
    | Cmd.submit =>
      let hist := s.history ++ [client.fingerprint, client.user ++ ": " ++ client.input, ""]
      let cleared := { client with input := "" }
      Except.ok ({ s with
          history := hist,
          clients := (insertA s.clients id cleared).map fun p =>
            (p.1, Client.render wrap hist p.2) }, [])
    | Cmd.deleteLastChar =>
      let c := { client with input := client.input.dropRight 1 }
      Except.ok ({ s with clients := insertA s.clients id (Client.render wrap s.history c) }, [])
    | Cmd.scrollBack n =>
      let c := { client with scroll := client.scroll - (n : Int) }
      Except.ok ({ s with clients := insertA s.clients id (Client.render wrap s.history c) }, [])
    | Cmd.scrollForward n =>
      let c := { client with scroll := client.scroll + (n : Int) }
      Except.ok ({ s with clients := insertA s.clients id (Client.render wrap s.history c) }, [])
    | Cmd.appendText t =>
      let c := { client with input := client.input ++ t }
      Except.ok ({ s with clients := insertA s.clients id (Client.render wrap s.history c) }, [])

/-- One transport-delivered event, tagged with the connection id it is for. -/
inductive Event where
  | auth : Nat → String → List Nat → Event
  | chanOpen : Nat → Viewport → Event
  | data : Nat → Nat → List Nat → Event
  | resize : Nat → Viewport → Event

/-- Apply one event to the shared state. A handler error is fatal only for
the originating connection: the shared state is left as it was. -/
def runEvent (wrap : List String → Nat → Nat) (e : Event) (s : AppServer) : AppServer :=
  match e with
  | Event.auth id u k => AppServer.authPublickey id u k s
  | Event.chanOpen id vp =>
    match AppServer.channelOpenSession wrap id vp s with
    | Except.ok t => t
    | Except.error _ => s
  | Event.data id ch bs =>
    match AppServer.data wrap id ch bs s with
    | Except.ok p => p.1
    | Except.error _ => s
  | Event.resize id vp =>
    match AppServer.windowChangeRequest wrap id vp s with
    | Except.ok t => t
    | Except.error _ => s

/-- Apply a sequence of events, oldest first. -/
def runEvents (wrap : List String → Nat → Nat) : List Event → AppServer → AppServer
  | [], s => s
  | e :: es, s => runEvents wrap es (runEvent wrap e s)

theorem lookupA_insertA_self {α : Type} (m : List (Nat × α)) (i : Nat) (v : α) :
    lookupA (insertA m i v) i = some v := by
  induction m with
  | nil => simp [insertA, lookupA]
  | cons p rest ih =>
    obtain ⟨k, w⟩ := p
    by_cases hk : k = i <;> simp [insertA, lookupA, hk, ih]

theorem lookupA_insertA_ne {α : Type} (m : List (Nat × α)) (i j : Nat) (v : α)
    (h : j ≠ i) : lookupA (insertA m i v) j = lookupA m j := by
  induction m with
  | nil => simp [insertA, lookupA, Ne.symm h]
  | cons p rest ih =>
    obtain ⟨k, w⟩ := p
    by_cases hk : k = i
    · subst hk
      simp [insertA, lookupA, Ne.symm h]
    · simp only [insertA, if_neg hk, lookupA]
      by_cases hj : k = j <;> simp [hj, ih]

theorem lookupA_mapVal {α β : Type} (f : α → β) (m : List (Nat × α)) (i : Nat) :
    lookupA (m.map fun p => (p.1, f p.2)) i = (lookupA m i).map f := by
  induction m with
  | nil => simp [lookupA]
  | cons p rest ih =>
    obtain ⟨k, w⟩ := p
    by_cases hk : k = i <;> simp [lookupA, hk, ih]

theorem lookupA_eq_none_of_not_mem {α : Type} (m : List (Nat × α)) (i : Nat)
    (h : i ∉ m.map Prod.fst) : lookupA m i = none := by
  induction m with
  | nil => simp [lookupA]
  | cons p rest ih =>
    obtain ⟨k, w⟩ := p
    simp only [List.map_cons, List.mem_cons] at h
    push_neg at h
    simp [lookupA, Ne.symm h.1, ih h.2]

theorem lookupA_eraseA_self {α : Type} (m : List (Nat × α)) (i : Nat)
    (hnd : (m.map Prod.fst).Nodup) : lookupA (eraseA m i) i = none := by
  induction m with
  | nil => simp [eraseA, lookupA]
  | cons p rest ih =>
    obtain ⟨k, w⟩ := p
    simp only [List.map_cons, List.nodup_cons] at hnd
    by_cases hk : k = i
    · subst hk
      simp [eraseA, lookupA_eq_none_of_not_mem rest k hnd.1]
    · simp [eraseA, hk, lookupA, ih hnd.2]

theorem lookupA_eraseA_ne {α : Type} (m : List (Nat × α)) (i j : Nat)
    (h : j ≠ i) : lookupA (eraseA m i) j = lookupA m j := by
  induction m with
  | nil => simp [eraseA]
  | cons p rest ih =>
    obtain ⟨k, w⟩ := p
    by_cases hk : k = i
    · subst hk
      simp [eraseA, lookupA, Ne.symm h]
    · simp only [eraseA, if_neg hk, lookupA]
      by_cases hj : k = j <;> simp [hj, ih]

theorem Client.render_input (wrap : List String → Nat → Nat) (history : List String)
    (c : Client) : (Client.render wrap history c).input = c.input := rfl

theorem Client.render_viewport (wrap : List String → Nat → Nat) (history : List String)
    (c : Client) : (Client.render wrap history c).viewport = c.viewport := rfl

theorem Client.render_sink (wrap : List String → Nat → Nat) (history : List String)
    (c : Client) :
    (Client.render wrap history c).sink
      = c.sink ++ [SinkItem.frame (Client.renderFrame wrap history c).2] := rfl

/-- After a render, the clamped scroll bias lies in `[-overflow, 0]` for the
overflow computed in that render. -/
theorem Client.render_scroll_bounds (wrap : List String → Nat → Nat)
    (history : List String) (c : Client) :
    -((overflowOf (wrap history c.viewport.width) c.viewport.histHeight : Nat) : Int)
        ≤ (Client.render wrap history c).scroll
      ∧ (Client.render wrap history c).scroll ≤ 0 := by
  refine ⟨le_max_left _ _, max_le ?_ (min_le_right _ _)⟩
  simp

theorem getLast?_append_singleton {α : Type} (l : List α) (a : α) :
    (l ++ [a]).getLast? = some a := by
  rw [List.getLast?_append_cons]
  rfl

/-- Factoring of the byte dispatch of `Handler::data` through the command
table: the handler on raw bytes equals the semantic action of the command
the interpreter assigns to those bytes. -/
theorem data_applyCmd (wrap : List String → Nat → Nat) (id ch : Nat)
    (bytes : List Nat) (s : AppServer) :
    AppServer.data wrap id ch bytes s = applyCmd wrap id ch (classify bytes) s := by
  unfold AppServer.data applyCmd
  cases hl : lookupA s.clients id with
  | none => rfl
  | some client =>
    unfold classify
    split_ifs <;> rfl

theorem classify_eq_disconnect (bytes : List Nat)
    (h : classify bytes = Cmd.disconnect) : bytes = [3] := by
  unfold classify at h
  split_ifs at h <;> simp_all

/-- The `[13]` (Submit) branch of `Handler::data`, fully evaluated: append
the three-line block to the history, clear the sender's input, re-render
every registered client against the new history. -/
theorem data_submit_eq (wrap : List String → Nat → Nat) (id ch : Nat)
    (s : AppServer) (c : Client) (hc : lookupA s.clients id = some c) :
    AppServer.data wrap id ch [13] s = Except.ok ({ s with
      history := s.history ++ [c.fingerprint, c.user ++ ": " ++ c.input, ""],
      clients := (insertA s.clients id { c with input := "" }).map fun p =>
        (p.1, Client.render wrap
          (s.history ++ [c.fingerprint, c.user ++ ": " ++ c.input, ""]) p.2) }, []) := by
  unfold AppServer.data
  rw [hc]
  rfl

/-- The `[3]` (Disconnect) branch of `Handler::data`, fully evaluated:
erase the sender's registry entry, then emit the channel-close request. -/
theorem data_disconnect_eq (wrap : List String → Nat → Nat) (id ch : Nat)
    (s : AppServer) (c : Client) (hc : lookupA s.clients id = some c) :
    AppServer.data wrap id ch [3] s =
      Except.ok ({ s with clients := eraseA s.clients id },
        [Effect.registryRemove id, Effect.channelClose ch]) := by
  unfold AppServer.data
  rw [hc]
  rfl

/-- Sample wrapped-line-count function: one wrapped line per history line. -/
def wc0 : List String → Nat → Nat := fun h _ => h.length

/-- Sample history pane. -/
def vp0 : Viewport := { width := 80, histHeight := 20 }

/-- Sample session: identity alice, freshly created on empty history. -/
def alice : Client := Client.new wc0 "alice" "fp1" [] vp0

/-- Sample session: identity bob, freshly created on empty history. -/
def bob : Client := Client.new wc0 "bob" "fp2" [] vp0

/-- Sample server state with sessions 0 (alice) and 1 (bob), empty history. -/
def s0 : AppServer := { clients := [(0, alice), (1, bob)], history := [], keys := [] }

/-- `s0` after session 0 sends Enter (`[13]`) with an empty input buffer. -/
def s1 : AppServer := runEvent wc0 (Event.data 0 0 [13]) s0

/-- Alice with a non-empty input buffer. -/
def aliceHi : Client := { alice with input := "hi" }

/-- Sample server state where session 0 (alice) has typed "hi". -/
def sHi : AppServer := { clients := [(0, aliceHi), (1, bob)], history := [], keys := [] }

/-- `sHi` after session 0 submits (`[13]`). -/
def sHi1 : AppServer := runEvent wc0 (Event.data 0 0 [13]) sHi

/-- `s0` after session 0 sends Up (`[27, 91, 65]`). -/
def sA : AppServer := runEvent wc0 (Event.data 0 0 [27, 91, 65]) s0

/-- The client stored for session 0 in `sA`. -/
def cA : Client := Client.render wc0 s0.history { alice with scroll := alice.scroll - 1 }

/-- Sample server state with a pending auth record for id 0 and no client. -/
def sK : AppServer := { clients := [], history := [], keys := [(0, ("alice", [1, 2, 3]))] }

/-- `sK` after the channel for id 0 opens. -/
def sK1 : AppServer := runEvent wc0 (Event.chanOpen 0 vp0) sK

theorem channelOpenSession_history (wrap : List String → Nat → Nat) (id : Nat)
    (vp : Viewport) (s t : AppServer)
    (h : AppServer.channelOpenSession wrap id vp s = Except.ok t) :
    t.history = s.history := by
  unfold AppServer.channelOpenSession at h
  cases hk : lookupA s.keys id with
  | none => rw [hk] at h; simp at h
  | some p =>
    obtain ⟨u, k⟩ := p
    rw [hk] at h
    simp only [Except.ok.injEq] at h
    rw [← h]

theorem windowChangeRequest_history (wrap : List String → Nat → Nat) (id : Nat)
    (vp : Viewport) (s t : AppServer)
    (h : AppServer.windowChangeRequest wrap id vp s = Except.ok t) :
    t.history = s.history := by
  unfold AppServer.windowChangeRequest at h
  cases hk : lookupA s.clients id with
  | none => rw [hk] at h; simp at h
  | some c =>
    rw [hk] at h
    simp only [Except.ok.injEq] at h
    rw [← h]

theorem data_history (wrap : List String → Nat → Nat) (id ch : Nat)
    (bytes : List Nat) (s s' : AppServer) (tr : List Effect)
    (h : AppServer.data wrap id ch bytes s = Except.ok (s', tr)) :
    ∃ t, s'.history = s.history ++ t := by
  unfold AppServer.data at h
  cases hl : lookupA s.clients id with
  | none => rw [hl] at h; simp at h
  | some client =>
    rw [hl] at h
    split_ifs at h <;>
      (simp only [Except.ok.injEq, Prod.mk.injEq] at h
       obtain ⟨h1, -⟩ := h
       subst h1
       first
       | exact ⟨_, rfl⟩
       | (refine ⟨[], ?_⟩; simp))

theorem runEvent_history_append (wrap : List String → Nat → Nat) (e : Event)
    (s : AppServer) : ∃ t, (runEvent wrap e s).history = s.history ++ t := by
  cases e with
  | auth id u k => exact ⟨[], by simp [runEvent, AppServer.authPublickey]⟩
  | chanOpen id vp =>
    simp only [runEvent]
    cases hh : AppServer.channelOpenSession wrap id vp s with
    | ok t => exact ⟨[], by simp [channelOpenSession_history wrap id vp s t hh]⟩
    | error e => exact ⟨[], by simp⟩
  | data id ch bs =>
    simp only [runEvent]
    cases hh : AppServer.data wrap id ch bs s with
    | ok p => exact data_history wrap id ch bs s p.1 p.2 hh
    | error e => exact ⟨[], by simp⟩
  | resize id vp =>
    simp only [runEvent]
    cases hh : AppServer.windowChangeRequest wrap id vp s with
    | ok t => exact ⟨[], by simp [windowChangeRequest_history wrap id vp s t hh]⟩
    | error e => exact ⟨[], by simp⟩

/-- C5: for every sequence of events applied by any sessions, the history
log only ever grows by appending at its end: the state after the run has
the old history as an unchanged initial segment (so its length is
non-decreasing and every line keeps its content and position). -/
theorem history_append_only (wrap : List String → Nat → Nat) (evs : List Event)
    (s : AppServer) : ∃ t, (runEvents wrap evs s).history = s.history ++ t := by
  induction evs generalizing s with
  | nil => exact ⟨[], by simp [runEvents]⟩
  | cons e es ih =>
    obtain ⟨t1, h1⟩ := runEvent_history_append wrap e s
    obtain ⟨t2, h2⟩ := ih (runEvent wrap e s)
    exact ⟨t1 ++ t2, by simp [runEvents, h2, h1]⟩

/-- C6: the input interpreter is a total function assigning exactly one
command per raw byte sequence: `Handler::data` factors through `classify`,
which realises the §4.2 table ([3]→Disconnect, [13]→Submit, [127]/[8]→
DeleteLastChar, [27,91,65]→ScrollBack 1, [27,91,66]→ScrollForward 1,
[27,91,53,126]→ScrollBack 10, [27,91,54,126]→ScrollForward 10), and every
other byte sequence falls through to AppendText of the stripped, lossily
decoded text — classification never fails. -/
theorem interpreter_table (wrap : List String → Nat → Nat) (id ch : Nat)
    (bytes : List Nat) (s : AppServer) :
    AppServer.data wrap id ch bytes s = applyCmd wrap id ch (classify bytes) s ∧
    classify [3] = Cmd.disconnect ∧
    classify [13] = Cmd.submit ∧
    classify [127] = Cmd.deleteLastChar ∧
    classify [8] = Cmd.deleteLastChar ∧
    classify [27, 91, 65] = Cmd.scrollBack 1 ∧
    classify [27, 91, 66] = Cmd.scrollForward 1 ∧
    classify [27, 91, 53, 126] = Cmd.scrollBack 10 ∧
    classify [27, 91, 54, 126] = Cmd.scrollForward 10 ∧
    (bytes ∉ ([[3], [13], [127], [8], [27, 91, 65], [27, 91, 66],
        [27, 91, 53, 126], [27, 91, 54, 126]] : List (List Nat)) →
      classify bytes = Cmd.appendText (stripDecode bytes)) := by
  refine ⟨data_applyCmd wrap id ch bytes s, rfl, rfl, rfl, rfl, rfl, rfl, rfl, rfl, ?_⟩
  intro hmem
  simp only [List.mem_cons, List.not_mem_nil, or_false, not_or] at hmem
  obtain ⟨h1, h2, h3, h4, h5, h6, h7, h8⟩ := hmem
  unfold classify
  rw [if_neg h1, if_neg h2, if_neg (not_or.mpr ⟨h3, h4⟩), if_neg h5, if_neg h6,
    if_neg h7, if_neg h8]

/-- Witness for C6 at byte 65 (letter A): the factoring at a concrete state
and the fall-through of an unlisted sequence to AppendText. -/
theorem interpreter_table_witness :
    AppServer.data wc0 0 0 [65] s0 = applyCmd wc0 0 0 (classify [65]) s0 ∧
    classify [65] = Cmd.appendText (stripDecode [65]) := by
  have h := interpreter_table wc0 0 0 [65] s0
  exact ⟨h.1, h.2.2.2.2.2.2.2.2.2 (by decide)⟩

theorem insert_render_bounds (wrap : List String → Nat → Nat) (id : Nat)
    (m : List (Nat × Client)) (H : List String) (c₁ c : Client)
    (hc : lookupA (insertA m id (Client.render wrap H c₁)) id = some c) :
    -((overflowOf (wrap H c.viewport.width) c.viewport.histHeight : Nat) : Int)
        ≤ c.scroll ∧ c.scroll ≤ 0 := by
  rw [lookupA_insertA_self] at hc
  simp only [Option.some.injEq] at hc
  subst hc
  simpa [Client.render_viewport] using Client.render_scroll_bounds wrap H c₁

theorem map_render_bounds (wrap : List String → Nat → Nat) (id : Nat)
    (m : List (Nat × Client)) (H : List String) (c : Client)
    (hc : lookupA (m.map fun p => (p.1, Client.render wrap H p.2)) id = some c) :
    -((overflowOf (wrap H c.viewport.width) c.viewport.histHeight : Nat) : Int)
        ≤ c.scroll ∧ c.scroll ≤ 0 := by
  rw [lookupA_mapVal] at hc
  cases hm : lookupA m id with
  | none => rw [hm] at hc; simp at hc
  | some c₁ =>
    rw [hm] at hc
    simp only [Option.map_some', Option.some.injEq] at hc
    subst hc
    simpa [Client.render_viewport] using Client.render_scroll_bounds wrap H c₁

/-- C4: after any `data` command that leaves the sender registered (anything
but Disconnect) completes its render, the sender's scroll bias lies in
`[-overflow, 0]`, where overflow is recomputed during that render from the
current wrapped content size and the viewport height; in particular repeated
ScrollBack/ScrollForward commands can never leave the post-render bias
outside those bounds. -/
theorem scroll_bias_clamped (wrap : List String → Nat → Nat) (id ch : Nat)
    (bytes : List Nat) (s s' : AppServer) (tr : List Effect) (c : Client)
    (h : AppServer.data wrap id ch bytes s = Except.ok (s', tr))
    (hb : bytes ≠ [3])
    (hc : lookupA s'.clients id = some c) :
    -((overflowOf (wrap s'.history c.viewport.width) c.viewport.histHeight : Nat) : Int)
        ≤ c.scroll ∧ c.scroll ≤ 0 := by
  rw [data_applyCmd] at h
  unfold applyCmd at h
  cases hl : lookupA s.clients id with
  | none => rw [hl] at h; simp at h
  | some client =>
    rw [hl] at h
    cases hcm : classify bytes with
    | disconnect => exact absurd (classify_eq_disconnect bytes hcm) hb
    | submit =>
      rw [hcm] at h
      simp only [Except.ok.injEq, Prod.mk.injEq] at h
      obtain ⟨h1, -⟩ := h
      subst h1
      exact map_render_bounds wrap id _ _ c hc
    | deleteLastChar =>
      rw [hcm] at h
      simp only [Except.ok.injEq, Prod.mk.injEq] at h
      obtain ⟨h1, -⟩ := h
      subst h1
      exact insert_render_bounds wrap id _ _ _ c hc
    | scrollBack n =>
      rw [hcm] at h
      simp only [Except.ok.injEq, Prod.mk.injEq] at h
      obtain ⟨h1, -⟩ := h
      subst h1
      exact insert_render_bounds wrap id _ _ _ c hc
    | scrollForward n =>
      rw [hcm] at h
      simp only [Except.ok.injEq, Prod.mk.injEq] at h
      obtain ⟨h1, -⟩ := h
      subst h1
      exact insert_render_bounds wrap id _ _ _ c hc
    | appendText t =>
      rw [hcm] at h
      simp only [Except.ok.injEq, Prod.mk.injEq] at h
      obtain ⟨h1, -⟩ := h
      subst h1
      exact insert_render_bounds wrap id _ _ _ c hc

/-- Witness for C4: session 0 of `s0` sends Up (`[27, 91, 65]`); the stored
client `cA` has its scroll bias inside `[-overflow, 0]`. -/
theorem scroll_bias_clamped_witness :
    -((overflowOf (wc0 sA.history cA.viewport.width) cA.viewport.histHeight : Nat) : Int)
        ≤ cA.scroll ∧ cA.scroll ≤ 0 :=
  scroll_bias_clamped wc0 0 0 [27, 91, 65] s0 sA [] cA rfl (by decide) (by decide)

theorem mapped_render_lastFrame (wrap : List String → Nat → Nat) (H : List String)
    (m : List (Nat × Client)) (j : Nat) (c' : Client)
    (hj : lookupA (m.map fun p => (p.1, Client.render wrap H p.2)) j = some c') :
    ∃ fr, c'.sink.getLast? = some (SinkItem.frame fr) ∧ fr.history = H := by
  rw [lookupA_mapVal] at hj
  cases hm : lookupA m j with
  | none => rw [hm] at hj; simp at hj
  | some a =>
    rw [hm] at hj
    simp only [Option.map_some', Option.some.injEq] at hj
    subst hj
    refine ⟨(Client.renderFrame wrap H a).2, ?_, rfl⟩
    rw [Client.render_sink, getLast?_append_singleton]

/-- C2: a Submit (`[13]`) from a session with non-empty input appends
exactly the three lines fingerprint, "identity: message" and a blank line
to the history, clears the sender's input buffer, and re-renders every
currently live session against the new history (each registered client's
sink ends with a frame of that history). -/
theorem submit_nonempty_broadcast (wrap : List String → Nat → Nat) (id ch : Nat)
    (s s' : AppServer) (tr : List Effect) (c : Client)
    (hc : lookupA s.clients id = some c)
    (hne : c.input ≠ "")
    (h : AppServer.data wrap id ch [13] s = Except.ok (s', tr)) :
    s'.history = s.history ++ [c.fingerprint, c.user ++ ": " ++ c.input, ""] ∧
    (∃ c', lookupA s'.clients id = some c' ∧ c'.input = "") ∧
    ∀ j c', lookupA s'.clients j = some c' →
      ∃ fr, c'.sink.getLast? = some (SinkItem.frame fr) ∧ fr.history = s'.history := by
  rw [data_submit_eq wrap id ch s c hc] at h
  simp only [Except.ok.injEq, Prod.mk.injEq] at h
  obtain ⟨h1, -⟩ := h
  subst h1
  refine ⟨rfl,
    ⟨Client.render wrap (s.history ++ [c.fingerprint, c.user ++ ": " ++ c.input, ""])
      { c with input := "" }, ?_, rfl⟩, ?_⟩
  · rw [lookupA_mapVal, lookupA_insertA_self]
    rfl
  · intro j c' hj
    exact mapped_render_lastFrame wrap _ _ j c' hj

/-- Witness for C2: session 0 of `sHi` (input buffer "hi") submits. -/
theorem submit_nonempty_broadcast_witness :
    sHi1.history = sHi.history ++ [aliceHi.fingerprint, aliceHi.user ++ ": " ++ aliceHi.input, ""] ∧
    (∃ c', lookupA sHi1.clients 0 = some c' ∧ c'.input = "") ∧
    ∀ j c', lookupA sHi1.clients j = some c' →
      ∃ fr, c'.sink.getLast? = some (SinkItem.frame fr) ∧ fr.history = sHi1.history :=
  submit_nonempty_broadcast wc0 0 0 sHi sHi1 [] aliceHi (by decide) (by decide) rfl

/-- C1 counterexample: session 0 of `s0` (alice) has an EMPTY input buffer,
yet Submit is not a no-op: the history grows by three lines ("fp1",
"alice: ", "") and even session 1 (bob, not the sender) gets a new frame
pushed (broadcast), contradicting "no effect, re-render of the sender only". -/
theorem submit_empty_cex :
    alice.input = "" ∧
    s0.history = [] ∧
    s1.history = ["fp1", "alice: ", ""] ∧
    (lookupA s0.clients 1).map (fun c => c.sink.length) = some 2 ∧
    (lookupA s1.clients 1).map (fun c => c.sink.length) = some 3 := by decide

/-- C1 (amended): a Submit from a session with an EMPTY input buffer is not
a no-op: `Handler::data` has no emptiness guard, so it still appends the
three lines fingerprint, "identity: " (empty message) and a blank line to
the history and re-renders every currently live session (broadcast), with
the sender's input staying empty. -/
theorem submit_empty_broadcast (wrap : List String → Nat → Nat) (id ch : Nat)
    (s s' : AppServer) (tr : List Effect) (c : Client)
    (hc : lookupA s.clients id = some c)
    (hemp : c.input = "")
    (h : AppServer.data wrap id ch [13] s = Except.ok (s', tr)) :
    s'.history = s.history ++ [c.fingerprint, c.user ++ ": ", ""] ∧
    ∀ j c', lookupA s'.clients j = some c' →
      ∃ fr, c'.sink.getLast? = some (SinkItem.frame fr) ∧ fr.history = s'.history := by
  rw [data_submit_eq wrap id ch s c hc] at h
  simp only [Except.ok.injEq, Prod.mk.injEq] at h
  obtain ⟨h1, -⟩ := h
  subst h1
  constructor
  · simp [hemp]
  · intro j c' hj
    exact mapped_render_lastFrame wrap _ _ j c' hj

/-- Witness for the amended C1: session 0 of `s0` (empty input) submits. -/
theorem submit_empty_broadcast_witness :
    s1.history = s0.history ++ [alice.fingerprint, alice.user ++ ": ", ""] ∧
    ∀ j c', lookupA s1.clients j = some c' →
      ∃ fr, c'.sink.getLast? = some (SinkItem.frame fr) ∧ fr.history = s1.history :=
  submit_empty_broadcast wc0 0 0 s0 s1 [] alice (by decide) (by decide) rfl

/-- C9: a Disconnect (`[3]`) from a registered session removes exactly that
session's registry entry — afterwards its id maps to nothing while every
other id maps to what it did before — leaves the history and the pending
auth records unchanged, and the effect trace removes the registry entry
first and requests the channel close second. -/
theorem disconnect_removes (wrap : List String → Nat → Nat) (id ch : Nat)
    (s : AppServer) (c : Client)
    (hc : lookupA s.clients id = some c)
    (hnd : (s.clients.map Prod.fst).Nodup) :
    AppServer.data wrap id ch [3] s =
      Except.ok ({ s with clients := eraseA s.clients id },
        [Effect.registryRemove id, Effect.channelClose ch]) ∧
    lookupA (eraseA s.clients id) id = none ∧
    (∀ j, j ≠ id → lookupA (eraseA s.clients id) j = lookupA s.clients j) ∧
    AppServer.history { s with clients := eraseA s.clients id } = s.history ∧
    AppServer.keys { s with clients := eraseA s.clients id } = s.keys :=
  ⟨data_disconnect_eq wrap id ch s c hc,
   lookupA_eraseA_self s.clients id hnd,
   fun j hj => lookupA_eraseA_ne s.clients id j hj,
   rfl, rfl⟩

/-- Witness for C9: session 0 of `s0` disconnects (channel 7). -/
theorem disconnect_removes_witness :
    AppServer.data wc0 0 7 [3] s0 =
      Except.ok ({ s0 with clients := eraseA s0.clients 0 },
        [Effect.registryRemove 0, Effect.channelClose 7]) ∧
    lookupA (eraseA s0.clients 0) 0 = none ∧
    (∀ j, j ≠ 0 → lookupA (eraseA s0.clients 0) j = lookupA s0.clients j) ∧
    AppServer.history { s0 with clients := eraseA s0.clients 0 } = s0.history ∧
    AppServer.keys { s0 with clients := eraseA s0.clients 0 } = s0.keys :=
  disconnect_removes wc0 0 7 s0 alice (by decide) (by decide)

/-- C8: applying any `data` command, or a Resize, for an id with no live
session signals a lookup failure (`data` returns the NotFound error;
`window_change_request` panics on its `unwrap`), fatal only for the
originating connection: the shared state — history log and every other
session — is left exactly as it was. -/
theorem missing_session_fails (wrap : List String → Nat → Nat) (id ch : Nat)
    (bytes : List Nat) (vp : Viewport) (s : AppServer)
    (h : lookupA s.clients id = none) :
    AppServer.data wrap id ch bytes s = Except.error Err.notFound ∧
    AppServer.windowChangeRequest wrap id vp s = Except.error Err.panicked ∧
    runEvent wrap (Event.data id ch bytes) s = s ∧
    runEvent wrap (Event.resize id vp) s = s := by
  have hd : AppServer.data wrap id ch bytes s = Except.error Err.notFound := by
    unfold AppServer.data
    rw [h]
  have hw : AppServer.windowChangeRequest wrap id vp s = Except.error Err.panicked := by
    unfold AppServer.windowChangeRequest
    rw [h]
  refine ⟨hd, hw, ?_, ?_⟩
  · simp [runEvent, hd]
  · simp [runEvent, hw]

/-- Witness for C8: id 5 is not registered in `s0`. -/
theorem missing_session_fails_witness :
    AppServer.data wc0 5 0 [13] s0 = Except.error Err.notFound ∧
    AppServer.windowChangeRequest wc0 5 vp0 s0 = Except.error Err.panicked ∧
    runEvent wc0 (Event.data 5 0 [13]) s0 = s0 ∧
    runEvent wc0 (Event.resize 5 vp0) s0 = s0 :=
  missing_session_fails wc0 5 0 [13] vp0 s0 (by decide)

/-- C7 counterexample: the pending auth record is NOT consumed when the
channel opens. `channel_open_session` reads the record with `keys.get` and
never removes it: after the successful open of id 0 (which did promote the
record into a live session), the record is still stored unchanged. -/
theorem auth_record_not_consumed_cex :
    lookupA sK.keys 0 = some ("alice", [1, 2, 3]) ∧
    lookupA sK1.clients 0 ≠ none ∧
    sK1.keys = sK.keys ∧
    lookupA sK1.keys 0 = some ("alice", [1, 2, 3]) := by decide

/-- C7 (amended): when a pending auth record (identity, credential) exists
for the id at channel open, it is read — but left in place, not consumed —
and promoted into a session whose identity is the recorded one and whose
fingerprint is computed from the credential (the `.ok` state keeps `keys`
unchanged); when no record exists, the open fails with the NotFound lookup
error, fatal for that connection only. -/
theorem channel_open_promotes (wrap : List String → Nat → Nat) (id : Nat)
    (vp : Viewport) (s : AppServer) :
    (∀ u k, lookupA s.keys id = some (u, k) →
      AppServer.channelOpenSession wrap id vp s = Except.ok { s with
        clients := insertA s.clients id (Client.new wrap u (fingerprint k) s.history vp) }) ∧
    (lookupA s.keys id = none →
      AppServer.channelOpenSession wrap id vp s = Except.error Err.notFound) := by
  constructor
  · intro u k hk
    unfold AppServer.channelOpenSession
    rw [hk]
  · intro hk
    unfold AppServer.channelOpenSession
    rw [hk]

/-- Witness for the amended C7: the open of id 0 succeeds on `sK` (pending
record present) and fails with NotFound on `s0` (no record). -/
theorem channel_open_promotes_witness :
    AppServer.channelOpenSession wc0 0 vp0 sK = Except.ok { sK with
      clients := insertA sK.clients 0
        (Client.new wc0 "alice" (fingerprint [1, 2, 3]) sK.history vp0) } ∧
    AppServer.channelOpenSession wc0 0 vp0 s0 = Except.error Err.notFound :=
  ⟨(channel_open_promotes wc0 0 vp0 sK).1 "alice" [1, 2, 3] (by decide),
   (channel_open_promotes wc0 0 vp0 s0).2 (by decide)⟩

/-- C10: a session created at channel open starts with an empty input
buffer and scroll bias 0, and its sink opens with the terminal clear
followed by one initial frame rendered from the history snapshot current at
creation time — all before any input event for it is processed. -/
theorem session_init (wrap : List String → Nat → Nat) (id : Nat) (vp : Viewport)
    (s s' : AppServer) (u : String) (k : List Nat)
    (hk : lookupA s.keys id = some (u, k))
    (h : AppServer.channelOpenSession wrap id vp s = Except.ok s') :
    ∃ c, lookupA s'.clients id = some c ∧ c.input = "" ∧ c.scroll = 0 ∧
      ∃ off, c.sink = [SinkItem.clear,
        SinkItem.frame { history := s.history, scrollOffset := off, input := "" }] := by
  unfold AppServer.channelOpenSession at h
  rw [hk] at h
  simp only [Except.ok.injEq] at h
  subst h
  refine ⟨Client.new wrap u (fingerprint k) s.history vp, ?_, rfl, ?_, ⟨_, rfl⟩⟩
  · exact lookupA_insertA_self s.clients id _
  · show clampI 0
      (-((overflowOf (wrap s.history vp.width) vp.histHeight : Nat) : Int)) 0 = 0
    unfold clampI
    rw [min_self]
    exact max_eq_right (neg_nonpos.mpr (Int.natCast_nonneg _))

/-- Witness for C10: the session created by the open of id 0 on `sK`. -/
theorem session_init_witness :
    ∃ c, lookupA sK1.clients 0 = some c ∧ c.input = "" ∧ c.scroll = 0 ∧
      ∃ off, c.sink = [SinkItem.clear,
        SinkItem.frame { history := sK.history, scrollOffset := off, input := "" }] :=
  session_init wc0 0 vp0 sK sK1 "alice" [1, 2, 3] (by decide) rfl

theorem overflowOf_lt (lc hh : Nat) : overflowOf lc hh < 65536 := by
  unfold overflowOf
  split
  · exact Nat.mod_lt _ (by omega)
  · omega

/-- C3 (amended): in every render the code's overflow is
`line_count - height + 4` when `line_count > height` and `0` otherwise (not
`max(0, line_count - height + 4)`, which differs when
`height - 4 < line_count ≤ height`); provided that value fits in 16 bits,
the drawn frame's display offset equals `overflow - |scroll_bias|` when the
clamped scroll bias is negative and `overflow` when it is `0`. -/
theorem render_offset_law (wrap : List String → Nat → Nat) (history : List String)
    (c : Client)
    (hfit : wrap history c.viewport.width < c.viewport.histHeight + 65532) :
    ∃ fr, (Client.render wrap history c).sink.getLast? = some (SinkItem.frame fr) ∧
      ((Client.render wrap history c).scroll < 0 →
        fr.scrollOffset = (if c.viewport.histHeight < wrap history c.viewport.width
            then wrap history c.viewport.width - c.viewport.histHeight + 4 else 0)
          - (Client.render wrap history c).scroll.natAbs) ∧
      ((Client.render wrap history c).scroll = 0 →
        fr.scrollOffset = (if c.viewport.histHeight < wrap history c.viewport.width
            then wrap history c.viewport.width - c.viewport.histHeight + 4 else 0)) := by
  have hov : overflowOf (wrap history c.viewport.width) c.viewport.histHeight
      = (if c.viewport.histHeight < wrap history c.viewport.width
          then wrap history c.viewport.width - c.viewport.histHeight + 4 else 0) := by
    unfold overflowOf
    split
    · exact Nat.mod_eq_of_lt (by omega)
    · rfl
  refine ⟨(Client.renderFrame wrap history c).2, ?_, ?_, ?_⟩
  · rw [Client.render_sink, getLast?_append_singleton]
  · intro hneg
    show (if (Client.render wrap history c).scroll < 0
        then overflowOf (wrap history c.viewport.width) c.viewport.histHeight
          - (Client.render wrap history c).scroll.natAbs
        else (overflowOf (wrap history c.viewport.width) c.viewport.histHeight
          + (Client.render wrap history c).scroll.natAbs) % 65536) = _
    rw [if_pos hneg, hov]
  · intro hz
    show (if (Client.render wrap history c).scroll < 0
        then overflowOf (wrap history c.viewport.width) c.viewport.histHeight
          - (Client.render wrap history c).scroll.natAbs
        else (overflowOf (wrap history c.viewport.width) c.viewport.histHeight
          + (Client.render wrap history c).scroll.natAbs) % 65536) = _
    rw [hz]
    rw [if_neg (lt_irrefl (0 : Int)), Int.natAbs_zero, Nat.add_zero,
      Nat.mod_eq_of_lt (overflowOf_lt _ _), hov]

/-- Sample external line count: 30 wrapped lines regardless of history. -/
def wc30 : List String → Nat → Nat := fun _ _ => 30

/-- Sample session scrolled back by 2, pane height 10. -/
def cScr : Client :=
  { input := "", user := "u", fingerprint := "f", scroll := -2,
    viewport := { width := 5, histHeight := 10 }, sink := [] }

/-- Witness for the amended C3: 30 wrapped lines in a pane of height 10,
scroll bias -2; overflow 24, display offset 22. -/
theorem render_offset_law_witness :
    ∃ fr, (Client.render wc30 [] cScr).sink.getLast? = some (SinkItem.frame fr) ∧
      ((Client.render wc30 [] cScr).scroll < 0 →
        fr.scrollOffset = (if cScr.viewport.histHeight < wc30 [] cScr.viewport.width
            then wc30 [] cScr.viewport.width - cScr.viewport.histHeight + 4 else 0)
          - (Client.render wc30 [] cScr).scroll.natAbs) ∧
      ((Client.render wc30 [] cScr).scroll = 0 →
        fr.scrollOffset = (if cScr.viewport.histHeight < wc30 [] cScr.viewport.width
            then wc30 [] cScr.viewport.width - cScr.viewport.histHeight + 4 else 0)) :=
  render_offset_law wc30 [] cScr (by decide)

/-- Sample external line count: 10 wrapped lines regardless of history. -/
def wcC3 : List String → Nat → Nat := fun _ _ => 10

/-- Sample session at rest (scroll bias 0), pane height 10. -/
def cC3 : Client :=
  { input := "", user := "u", fingerprint := "f", scroll := 0,
    viewport := { width := 5, histHeight := 10 }, sink := [] }

/-- `cC3` after a render with 10 wrapped lines. -/
def rC3 : Client := Client.render wcC3 [] cC3

/-- C3 counterexample: with line_count = height = 10 and scroll_bias = 0 the
code draws display offset 0 (overflow is 0 unless line_count exceeds the
height), while the claimed formula max(0, line_count - height + 4) gives
overflow 4 — and the claim says the display offset equals overflow when
scroll_bias = 0. -/
theorem render_offset_cex :
    rC3.scroll = 0 ∧
    rC3.sink.getLast? = some (SinkItem.frame { history := [], scrollOffset := 0, input := "" }) ∧
    max 0 ((10 : Int) - 10 + 4) = 4 ∧
    (0 : Int) ≠ 4 := by decide
